import Mathlib

/-!
Shallow embedding of the PingMonitor repository: the per-target monitoring
loop shared by PingMonitor.py (monitor_url) and database_ping_monitor.py
(DynamicPingMonitor.monitor_url_with_stop), the target-set reconciler
(reload_config, start_monitoring_url, stop_monitoring_url), the config
watcher (monitor_config), shutdown together with DatabaseManager.close
(db_connect.py), and the ping output parser (ping_host).

Modelling conventions: Python machine floats are modelled as exact rationals;
the textual ping output is a list of characters with ASCII semantics for the
regular expression; exceptions are explicit constructors of input types.
-/

namespace PingMonitor

/-- Status strings written by the monitor loop: the code writes exactly
"Success", "High Latency" and "Ping Failure" to the record sink; the
resolutionFailure constructor exists only to state the spec claim about
resolution failures and is never produced by the embedded code. -/
inductive StatusKind where
  | success
  | highLatency
  | pingFailure
  | resolutionFailure
deriving DecidableEq

/-- Per-iteration configuration, reread at the top of each loop cycle in
database_ping_monitor.py lines 272-274 (PING_THRESHOLD, ALERT_THRESHOLD,
PING_INTERVAL). -/
structure Config where
  ping_threshold : ℚ
  alert_threshold : ℕ
  ping_interval : ℕ
deriving DecidableEq

/-- The loop-local mutable state of one target monitor
(database_ping_monitor.py lines 266-268): consecutive_failures,
consecutive_latency_alerts and the attempt counter. -/
structure MonitorState where
  consecutive_failures : ℕ
  consecutive_latency_alerts : ℕ
  counter : ℕ
deriving DecidableEq

/-- Result of ping_host as consumed by the loop: either failure, in which
case the returned response time is None, or success carrying a response time
in milliseconds. -/
inductive ProbeOutcome where
  | failure
  | success (response_time_ms : ℚ)
deriving DecidableEq

/-- What one loop iteration observes: either resolve_url_to_ip returned None,
or an IP was obtained and ping_host produced an outcome. -/
inductive CycleInput where
  | resolution_failure
  | probed (outcome : ProbeOutcome)
deriving DecidableEq

/-- One row handed to the record sink by log_to_database / log_to_csv: the
status string, the response time (None unless the probe succeeded) and the
attempt counter current at logging time.  The url, ip and timestamp columns
are constant or environmental and are omitted. -/
structure PingRecord where
  status : StatusKind
  response_time_ms : Option ℚ
  count : ℕ
deriving DecidableEq

/-- Everything one loop iteration does that the claims observe: the successor
state, the record written to the sink (none on resolution failure), and
whether a failure alert or a latency alert fired this iteration. -/
structure CycleOutput where
  state : MonitorState
  record : Option PingRecord
  failure_alert : Bool
  latency_alert : Bool
deriving DecidableEq

/-- One iteration of the monitor loop body, database_ping_monitor.py lines
276-328 (identically PingMonitor.py lines 129-180).  On resolution failure
the code prints, waits and continues without logging or touching any
counter.  Otherwise it classifies the probe outcome, updates the counters,
fires alerts at the threshold, logs one record with the current counter and
then increments the counter. -/
def monitor_cycle (cfg : Config) (s : MonitorState) : CycleInput → CycleOutput
  | CycleInput.resolution_failure => ⟨s, none, false, false⟩
  | CycleInput.probed ProbeOutcome.failure =>
    if cfg.alert_threshold ≤ s.consecutive_failures + 1 then
      { state := ⟨0, 0, s.counter + 1⟩,
        record := some ⟨StatusKind.pingFailure, none, s.counter⟩,
        failure_alert := true, latency_alert := false }
    else
      { state := ⟨s.consecutive_failures + 1, 0, s.counter + 1⟩,
        record := some ⟨StatusKind.pingFailure, none, s.counter⟩,
        failure_alert := false, latency_alert := false }
  | CycleInput.probed (ProbeOutcome.success lat) =>
    if cfg.ping_threshold < lat then
      if cfg.alert_threshold ≤ s.consecutive_latency_alerts + 1 then
        { state := ⟨0, 0, s.counter + 1⟩,
          record := some ⟨StatusKind.highLatency, some lat, s.counter⟩,
          failure_alert := false, latency_alert := true }
      else
        { state := ⟨0, s.consecutive_latency_alerts + 1, s.counter + 1⟩,
          record := some ⟨StatusKind.highLatency, some lat, s.counter⟩,
          failure_alert := false, latency_alert := false }
    else
      { state := ⟨0, 0, s.counter + 1⟩,
        record := some ⟨StatusKind.success, some lat, s.counter⟩,
        failure_alert := false, latency_alert := false }

/-- Aggregate of a run of consecutive loop iterations: final state, the list
of records written to the sink in order, and how many failure and latency
alerts fired. -/
structure RunOutput where
  state : MonitorState
  records : List PingRecord
  failure_alerts : ℕ
  latency_alerts : ℕ
deriving DecidableEq

/-- Run the monitor loop body over a list of cycle inputs with a fixed
configuration, accumulating records and alert counts. -/
def run_monitor (cfg : Config) : MonitorState → List CycleInput → RunOutput
  | s, [] => ⟨s, [], 0, 0⟩
  | s, i :: rest =>
    let o := monitor_cycle cfg s i
    let r := run_monitor cfg o.state rest
    { state := r.state,
      records := o.record.toList ++ r.records,
      failure_alerts := (cond o.failure_alert 1 0) + r.failure_alerts,
      latency_alerts := (cond o.latency_alert 1 0) + r.latency_alerts }

/-- On a run of consecutive probe failures starting below the threshold, the
alert count is the quotient and the final failure counter the remainder of
the total consecutive-failure count by the threshold. -/
lemma run_failures_aux (cfg : Config) (hT : 0 < cfg.alert_threshold) :
    ∀ (n : ℕ) (s : MonitorState),
      s.consecutive_failures < cfg.alert_threshold →
      (run_monitor cfg s
          (List.replicate n (CycleInput.probed ProbeOutcome.failure))).failure_alerts
          = (s.consecutive_failures + n) / cfg.alert_threshold
        ∧ (run_monitor cfg s
            (List.replicate n
              (CycleInput.probed ProbeOutcome.failure))).state.consecutive_failures
          = (s.consecutive_failures + n) % cfg.alert_threshold := by
  intro n
  induction n with
  | zero =>
    intro s hs
    simp [run_monitor, Nat.div_eq_of_lt hs, Nat.mod_eq_of_lt hs]
  | succ n ih =>
    intro s hs
    rw [List.replicate_succ]
    by_cases hc : cfg.alert_threshold ≤ s.consecutive_failures + 1
    · have hrest := ih ⟨0, 0, s.counter + 1⟩ hT
      simp only [Nat.zero_add] at hrest
      have harith : s.consecutive_failures + (n + 1) = n + cfg.alert_threshold := by omega
      rw [harith, Nat.add_div_right _ hT, Nat.add_mod_right]
      simp only [run_monitor, monitor_cycle, if_pos hc, cond_true]
      exact ⟨by rw [hrest.1, Nat.add_comm], hrest.2⟩
    · have hlt : s.consecutive_failures + 1 < cfg.alert_threshold := by omega
      have hrest := ih ⟨s.consecutive_failures + 1, 0, s.counter + 1⟩ hlt
      have harith : s.consecutive_failures + 1 + n = s.consecutive_failures + (n + 1) := by
        omega
      rw [harith] at hrest
      simp only [run_monitor, monitor_cycle, if_neg hc, cond_false]
      exact ⟨by rw [Nat.zero_add, hrest.1], hrest.2⟩

/-- Claim C1: with a fixed alert threshold T of at least 1 and both counters
starting at 0, a run of N consecutive probe failures with N at least T fires
exactly N / T failure alerts, and consecutive_failures ends at N mod T: the
alert is a repeating trigger that resets the counter to 0 each time it
fires. -/
theorem failure_run_alert_count (cfg : Config) (N c : ℕ)
    (hT : 1 ≤ cfg.alert_threshold) (_hN : cfg.alert_threshold ≤ N) :
    (run_monitor cfg ⟨0, 0, c⟩
        (List.replicate N (CycleInput.probed ProbeOutcome.failure))).failure_alerts
        = N / cfg.alert_threshold
      ∧ (run_monitor cfg ⟨0, 0, c⟩
          (List.replicate N
            (CycleInput.probed ProbeOutcome.failure))).state.consecutive_failures
        = N % cfg.alert_threshold := by
  have h := run_failures_aux cfg hT N ⟨0, 0, c⟩ hT
  simpa using h

/-- Witness for failure_run_alert_count: threshold 3, a run of 7 failures,
2 alerts fired and the counter ends at 1. -/
theorem failure_run_alert_count_witness :
    (run_monitor ⟨100, 3, 30⟩ ⟨0, 0, 1⟩
        (List.replicate 7 (CycleInput.probed ProbeOutcome.failure))).failure_alerts
        = 7 / 3
      ∧ (run_monitor ⟨100, 3, 30⟩ ⟨0, 0, 1⟩
          (List.replicate 7
            (CycleInput.probed ProbeOutcome.failure))).state.consecutive_failures
        = 7 % 3 :=
  failure_run_alert_count ⟨100, 3, 30⟩ 7 1 (by decide) (by decide)

/-- Claim C2 counterexample: with ping_threshold 100 and alert_threshold 3,
a successful probe of latency 150 taken in the state with
consecutive_failures 5 and consecutive_latency_alerts 0 leaves the evaluated
state with consecutive_latency_alerts 1, not 0: a successful probe does not
reset both counters regardless of latency. -/
theorem success_does_not_reset_both_counters :
    ¬ ((monitor_cycle ⟨100, 3, 30⟩ ⟨5, 0, 1⟩
          (CycleInput.probed (ProbeOutcome.success 150))).state.consecutive_failures = 0
        ∧ (monitor_cycle ⟨100, 3, 30⟩ ⟨5, 0, 1⟩
            (CycleInput.probed
              (ProbeOutcome.success 150))).state.consecutive_latency_alerts = 0) := by
  decide

/-- Claim C2 amended: a single successful probe always sets
consecutive_failures to 0, and it sets consecutive_latency_alerts to 0
whenever its latency is at most ping_threshold; a high-latency success
instead increments consecutive_latency_alerts. -/
theorem success_reset_spec (cfg : Config) (s : MonitorState) (lat : ℚ) :
    (monitor_cycle cfg s
        (CycleInput.probed (ProbeOutcome.success lat))).state.consecutive_failures = 0
      ∧ (lat ≤ cfg.ping_threshold →
          (monitor_cycle cfg s
              (CycleInput.probed
                (ProbeOutcome.success lat))).state.consecutive_latency_alerts = 0) := by
  constructor
  · simp only [monitor_cycle]
    split
    · split <;> rfl
    · rfl
  · intro hle
    have hnot : ¬ cfg.ping_threshold < lat := not_lt.mpr hle
    simp [monitor_cycle, hnot]

/-- Witness for success_reset_spec: a success of latency 90 against threshold
100 zeroes both counters from the state with counters 5 and 4. -/
theorem success_reset_spec_witness :
    (monitor_cycle ⟨100, 3, 30⟩ ⟨5, 4, 9⟩
        (CycleInput.probed (ProbeOutcome.success 90))).state.consecutive_failures = 0
      ∧ (monitor_cycle ⟨100, 3, 30⟩ ⟨5, 4, 9⟩
          (CycleInput.probed
            (ProbeOutcome.success 90))).state.consecutive_latency_alerts = 0 :=
  ⟨(success_reset_spec ⟨100, 3, 30⟩ ⟨5, 4, 9⟩ 90).1,
   (success_reset_spec ⟨100, 3, 30⟩ ⟨5, 4, 9⟩ 90).2 (by norm_num)⟩

/-- Claim C3: a successful probe with latency strictly above ping_threshold
is logged as High Latency, zeroes consecutive_failures and increments
consecutive_latency_alerts; the latency alert fires exactly when the
incremented value reaches alert_threshold, in which case the latency counter
resets to 0; and a successful probe with latency equal to ping_threshold is
logged as Success. -/
theorem high_latency_cycle_spec (cfg : Config) (s : MonitorState) (lat : ℚ) :
    (cfg.ping_threshold < lat →
      (monitor_cycle cfg s (CycleInput.probed (ProbeOutcome.success lat))).record
          = some ⟨StatusKind.highLatency, some lat, s.counter⟩
        ∧ (monitor_cycle cfg s
            (CycleInput.probed (ProbeOutcome.success lat))).state.consecutive_failures = 0
        ∧ (monitor_cycle cfg s
            (CycleInput.probed (ProbeOutcome.success lat))).latency_alert
          = decide (cfg.alert_threshold ≤ s.consecutive_latency_alerts + 1)
        ∧ (monitor_cycle cfg s
            (CycleInput.probed
              (ProbeOutcome.success lat))).state.consecutive_latency_alerts
          = (if cfg.alert_threshold ≤ s.consecutive_latency_alerts + 1 then 0
             else s.consecutive_latency_alerts + 1))
      ∧ (lat = cfg.ping_threshold →
          (monitor_cycle cfg s (CycleInput.probed (ProbeOutcome.success lat))).record
            = some ⟨StatusKind.success, some lat, s.counter⟩) := by
  constructor
  · intro hlt
    by_cases hc : cfg.alert_threshold ≤ s.consecutive_latency_alerts + 1 <;>
      simp [monitor_cycle, hlt, hc]
  · intro heq
    have hnot : ¬ cfg.ping_threshold < lat := by
      rw [heq]
      exact lt_irrefl _
    simp [monitor_cycle, hnot]

/-- Witness for high_latency_cycle_spec: latency 150 against threshold 100
with two prior latency alerts fires the alert and resets the counter, and a
latency of exactly 100 is logged as Success. -/
theorem high_latency_cycle_spec_witness :
    ((monitor_cycle ⟨100, 3, 30⟩ ⟨0, 2, 5⟩
          (CycleInput.probed (ProbeOutcome.success 150))).record
        = some ⟨StatusKind.highLatency, some 150, 5⟩
      ∧ (monitor_cycle ⟨100, 3, 30⟩ ⟨0, 2, 5⟩
          (CycleInput.probed (ProbeOutcome.success 150))).state.consecutive_failures = 0
      ∧ (monitor_cycle ⟨100, 3, 30⟩ ⟨0, 2, 5⟩
          (CycleInput.probed (ProbeOutcome.success 150))).latency_alert
        = decide ((3 : ℕ) ≤ 2 + 1)
      ∧ (monitor_cycle ⟨100, 3, 30⟩ ⟨0, 2, 5⟩
          (CycleInput.probed (ProbeOutcome.success 150))).state.consecutive_latency_alerts
        = (if (3 : ℕ) ≤ 2 + 1 then 0 else 2 + 1))
    ∧ (monitor_cycle ⟨100, 3, 30⟩ ⟨0, 2, 5⟩
        (CycleInput.probed (ProbeOutcome.success 100))).record
      = some ⟨StatusKind.success, some 100, 5⟩ :=
  ⟨(high_latency_cycle_spec ⟨100, 3, 30⟩ ⟨0, 2, 5⟩ 150).1 (by norm_num),
   (high_latency_cycle_spec ⟨100, 3, 30⟩ ⟨0, 2, 5⟩ 100).2 rfl⟩

/-- Claim C4 counterexample: on a resolution-failure cycle the loop writes
nothing to the record sink, so in particular no record with status
resolutionFailure is emitted. -/
theorem resolution_failure_emits_no_record :
    ¬ ∃ r : PingRecord,
        (monitor_cycle ⟨100, 3, 30⟩ ⟨0, 0, 1⟩ CycleInput.resolution_failure).record
            = some r
          ∧ r.status = StatusKind.resolutionFailure := by
  rintro ⟨r, hr, -⟩
  simp [monitor_cycle] at hr

/-- Claim C4 amended: on a cycle where name resolution fails the monitor
writes no observation to the record sink (it only prints a console message),
leaves consecutive_failures, consecutive_latency_alerts and the attempt
counter unchanged, fires no alert, and after waiting one interval retries:
the cycle output is exactly the unchanged state with no record and no
alerts. -/
theorem resolution_failure_cycle_spec (cfg : Config) (s : MonitorState) :
    monitor_cycle cfg s CycleInput.resolution_failure = ⟨s, none, false, false⟩ := rfl

/-- The list of n consecutive natural numbers starting at c. -/
def consec_from : ℕ → ℕ → List ℕ
  | _, 0 => []
  | c, n + 1 => c :: consec_from (c + 1) n

/-- A probed cycle always increments the counter by one and emits exactly one
record carrying the counter value from before the increment. -/
lemma probed_cycle_counter (cfg : Config) (s : MonitorState) (o : ProbeOutcome) :
    (monitor_cycle cfg s (CycleInput.probed o)).state.counter = s.counter + 1
      ∧ ∃ r, (monitor_cycle cfg s (CycleInput.probed o)).record = some r
          ∧ r.count = s.counter := by
  cases o with
  | failure =>
    by_cases hc : cfg.alert_threshold ≤ s.consecutive_failures + 1 <;>
      simp [monitor_cycle, hc]
  | success lat =>
    by_cases hl : cfg.ping_threshold < lat
    · by_cases hc : cfg.alert_threshold ≤ s.consecutive_latency_alerts + 1 <;>
        simp [monitor_cycle, hl, hc]
    · simp [monitor_cycle, hl]

/-- Claim C7: over any run of cycles of one target monitor, every emitted
record carries the counter value current at its cycle and the counter is
incremented by exactly one right after each emission and never reset, so the
records carry the consecutive values counter, counter + 1, ... and the final
counter exceeds the initial one by the number of records. -/
theorem attempt_counter_consecutive (cfg : Config) (s : MonitorState)
    (inputs : List CycleInput) :
    (run_monitor cfg s inputs).records.map PingRecord.count
        = consec_from s.counter (run_monitor cfg s inputs).records.length
      ∧ (run_monitor cfg s inputs).state.counter
        = s.counter + (run_monitor cfg s inputs).records.length := by
  induction inputs generalizing s with
  | nil => simp [run_monitor, consec_from]
  | cons i rest ih =>
    cases i with
    | resolution_failure =>
      simpa [run_monitor, monitor_cycle] using ih s
    | probed o =>
      obtain ⟨hcounter, r, hr, hcount⟩ := probed_cycle_counter cfg s o
      have ihr := ih (monitor_cycle cfg s (CycleInput.probed o)).state
      rw [hcounter] at ihr
      simp only [run_monitor, hr, Option.toList_some, List.singleton_append,
        List.map_cons, List.length_cons, ihr.1, ihr.2, hcount, hcounter]
      constructor
      · rfl
      · omega

/-- Model of the body of DynamicPingMonitor.monitor_config
(database_ping_monitor.py lines 223-233) for one poll of an existing .env
file: given the stored last_modified and the observed mtime, it returns the
updated last_modified and whether reload_config is invoked on this poll.
The stored value starts at 0 before the first poll. -/
def monitor_config_step (last_modified current_modified : ℚ) : ℚ × Bool :=
  if last_modified < current_modified then
    (current_modified, decide (0 < current_modified))
  else
    (last_modified, false)

/-- Claim C5 (code bug): on the very first poll, with last_modified still 0
and the file reporting any positive mtime, the watcher updates last_modified
and then tests the already-updated value against 0, so reload_config is
invoked by the first observation, contradicting the intended baseline-only
first read that the source comments as Skip initial load. -/
theorem monitor_config_first_poll_reloads :
    monitor_config_step 0 1700000000 = (1700000000, true) := by
  norm_num [monitor_config_step]

/-- Process-wide state of DynamicPingMonitor: the active_threads and
stop_events dictionaries (values are fresh identifiers), the loop-local
counters owned by the thread monitoring each url, the current_urls set, and
a supply of fresh identifiers for new threads and events. -/
structure SystemState where
  active_threads : String → Option ℕ
  stop_events : String → Option ℕ
  monitor_states : String → Option MonitorState
  current_urls : Finset String
  next_id : ℕ

/-- DynamicPingMonitor.stop_monitoring_url (lines 251-262): if a stop event
exists for the url it is set, which makes that monitor loop exit and its
loop-local state disappear, and both dictionary entries for the url are
deleted; otherwise nothing happens. -/
def stop_monitoring_url (url : String) (s : SystemState) : SystemState :=
  if (s.stop_events url).isSome then
    { s with
      active_threads := fun v => if v = url then none else s.active_threads v,
      stop_events := fun v => if v = url then none else s.stop_events v,
      monitor_states := fun v => if v = url then none else s.monitor_states v }
  else s

/-- DynamicPingMonitor.start_monitoring_url (lines 238-249): a url that
already has an entry in active_threads is left completely untouched;
otherwise a fresh stop event and thread are created and the new monitor loop
starts with consecutive_failures 0, consecutive_latency_alerts 0 and counter
1 (lines 266-268). -/
def start_monitoring_url (url : String) (s : SystemState) : SystemState :=
  if (s.active_threads url).isSome then s
  else
    { s with
      stop_events := fun v => if v = url then some s.next_id else s.stop_events v,
      active_threads := fun v => if v = url then some (s.next_id + 1) else s.active_threads v,
      monitor_states := fun v => if v = url then some ⟨0, 0, 1⟩ else s.monitor_states v,
      next_id := s.next_id + 2 }

/-- DynamicPingMonitor.reload_config (lines 182-217): compute the urls to add
and to remove as the two set differences against current_urls, stop each
removed url, start each added url, and commit the new set.  Returns the
final state together with the computed to-add and to-remove lists. -/
def reload_config (new_urls : Finset String) (s : SystemState) :
    SystemState × List String × List String :=
  let urls_to_add := (new_urls \ s.current_urls).sort (· ≤ ·)
  let urls_to_remove := (s.current_urls \ new_urls).sort (· ≤ ·)
  let s1 := urls_to_remove.foldl (fun st u => stop_monitoring_url u st) s
  let s2 := urls_to_add.foldl (fun st u => start_monitoring_url u st) s1
  ({ s2 with current_urls := new_urls }, urls_to_add, urls_to_remove)

/-- Stopping one url leaves every dictionary entry of a different url
unchanged, and leaves current_urls and the id supply unchanged. -/
lemma stop_monitoring_url_frame (url v : String) (s : SystemState) (hv : v ≠ url) :
    (stop_monitoring_url url s).active_threads v = s.active_threads v
      ∧ (stop_monitoring_url url s).stop_events v = s.stop_events v
      ∧ (stop_monitoring_url url s).monitor_states v = s.monitor_states v := by
  unfold stop_monitoring_url
  split <;> simp [hv]

/-- Starting one url leaves every dictionary entry of a different url
unchanged. -/
lemma start_monitoring_url_frame (url v : String) (s : SystemState) (hv : v ≠ url) :
    (start_monitoring_url url s).active_threads v = s.active_threads v
      ∧ (start_monitoring_url url s).stop_events v = s.stop_events v
      ∧ (start_monitoring_url url s).monitor_states v = s.monitor_states v := by
  unfold start_monitoring_url
  split <;> simp [hv]

/-- Folding stop_monitoring_url over a list that does not contain v leaves
the dictionary entries of v unchanged. -/
lemma foldl_stop_frame (L : List String) (v : String) (hv : v ∉ L) :
    ∀ s : SystemState,
      (L.foldl (fun st u => stop_monitoring_url u st) s).active_threads v
          = s.active_threads v
        ∧ (L.foldl (fun st u => stop_monitoring_url u st) s).stop_events v
          = s.stop_events v
        ∧ (L.foldl (fun st u => stop_monitoring_url u st) s).monitor_states v
          = s.monitor_states v := by
  induction L with
  | nil => intro s; exact ⟨rfl, rfl, rfl⟩
  | cons w rest ih =>
    intro s
    have hvw : v ≠ w := fun h => hv (h ▸ List.mem_cons_self w rest)
    have hrest := ih (fun h => hv (List.mem_cons_of_mem w h)) (stop_monitoring_url w s)
    have hstep := stop_monitoring_url_frame w v s hvw
    simp only [List.foldl_cons]
    exact ⟨hrest.1.trans hstep.1, hrest.2.1.trans hstep.2.1, hrest.2.2.trans hstep.2.2⟩

/-- Folding start_monitoring_url over a list that does not contain v leaves
the dictionary entries of v unchanged. -/
lemma foldl_start_frame (L : List String) (v : String) (hv : v ∉ L) :
    ∀ s : SystemState,
      (L.foldl (fun st u => start_monitoring_url u st) s).active_threads v
          = s.active_threads v
        ∧ (L.foldl (fun st u => start_monitoring_url u st) s).stop_events v
          = s.stop_events v
        ∧ (L.foldl (fun st u => start_monitoring_url u st) s).monitor_states v
          = s.monitor_states v := by
  induction L with
  | nil => intro s; exact ⟨rfl, rfl, rfl⟩
  | cons w rest ih =>
    intro s
    have hvw : v ≠ w := fun h => hv (h ▸ List.mem_cons_self w rest)
    have hrest := ih (fun h => hv (List.mem_cons_of_mem w h)) (start_monitoring_url w s)
    have hstep := start_monitoring_url_frame w v s hvw
    simp only [List.foldl_cons]
    exact ⟨hrest.1.trans hstep.1, hrest.2.1.trans hstep.2.1, hrest.2.2.trans hstep.2.2⟩

/-- Claim C6: reload_config computes to-start as desired minus current and
to-stop as current minus desired; reconciling a desired set equal to the
current set performs zero starts and zero stops and returns the state
unchanged; and every url present in both sets keeps its thread entry, stop
event and loop counters untouched. -/
theorem reload_config_spec (new_urls : Finset String) (s : SystemState) :
    (reload_config new_urls s).2.1.toFinset = new_urls \ s.current_urls
      ∧ (reload_config new_urls s).2.2.toFinset = s.current_urls \ new_urls
      ∧ (new_urls = s.current_urls → reload_config new_urls s = (s, [], []))
      ∧ (∀ u, u ∈ new_urls → u ∈ s.current_urls →
          (reload_config new_urls s).1.active_threads u = s.active_threads u
            ∧ (reload_config new_urls s).1.stop_events u = s.stop_events u
            ∧ (reload_config new_urls s).1.monitor_states u = s.monitor_states u) := by
  refine ⟨?_, ?_, ?_, ?_⟩
  · simp [reload_config, Finset.sort_toFinset]
  · simp [reload_config, Finset.sort_toFinset]
  · intro heq
    have hadd : new_urls \ s.current_urls = ∅ := by rw [heq, Finset.sdiff_self]
    have hrem : s.current_urls \ new_urls = ∅ := by rw [heq, Finset.sdiff_self]
    simp only [reload_config, hadd, hrem, Finset.sort_empty, List.foldl_nil]
    rw [heq]
  · intro u hu hc
    have hadd : u ∉ (new_urls \ s.current_urls).sort (· ≤ ·) := by
      rw [Finset.mem_sort, Finset.mem_sdiff]
      exact fun h => h.2 hc
    have hrem : u ∉ (s.current_urls \ new_urls).sort (· ≤ ·) := by
      rw [Finset.mem_sort, Finset.mem_sdiff]
      exact fun h => h.2 hu
    have h1 := foldl_stop_frame ((s.current_urls \ new_urls).sort (· ≤ ·)) u hrem s
    have h2 := foldl_start_frame ((new_urls \ s.current_urls).sort (· ≤ ·)) u hadd
      (((s.current_urls \ new_urls).sort (· ≤ ·)).foldl
        (fun st w => stop_monitoring_url w st) s)
    simp only [reload_config]
    exact ⟨h2.1.trans h1.1, h2.2.1.trans h1.2.1, h2.2.2.trans h1.2.2⟩

/-- Concrete system state used to witness reload_config_spec: exactly the
url a is being monitored. -/
def sample_state_reload : SystemState :=
  { active_threads := fun u => if u = "a" then some 1 else none,
    stop_events := fun u => if u = "a" then some 0 else none,
    monitor_states := fun u => if u = "a" then some ⟨2, 3, 7⟩ else none,
    current_urls := {"a"},
    next_id := 2 }

/-- Witness for reload_config_spec: reconciling the singleton set against an
identical current set changes nothing, and the monitored url keeps all its
entries. -/
theorem reload_config_spec_witness :
    reload_config {"a"} sample_state_reload = (sample_state_reload, [], [])
      ∧ ((reload_config {"a"} sample_state_reload).1.active_threads "a"
          = sample_state_reload.active_threads "a"
        ∧ (reload_config {"a"} sample_state_reload).1.stop_events "a"
          = sample_state_reload.stop_events "a"
        ∧ (reload_config {"a"} sample_state_reload).1.monitor_states "a"
          = sample_state_reload.monitor_states "a") :=
  ⟨(reload_config_spec {"a"} sample_state_reload).2.2.1 rfl,
   (reload_config_spec {"a"} sample_state_reload).2.2.2 "a"
     (Finset.mem_singleton.mpr rfl) (Finset.mem_singleton.mpr rfl)⟩

/-- Claim C8: starting a monitor for a url that already has a running thread
changes nothing at all, and stopping a running url and then starting it
again creates a fresh monitor whose loop state has consecutive_failures 0,
consecutive_latency_alerts 0 and counter 1, with no carry-over. -/
theorem start_monitoring_url_spec (s : SystemState) (u : String) :
    (∀ t, s.active_threads u = some t → start_monitoring_url u s = s)
      ∧ (∀ e, s.stop_events u = some e →
          (start_monitoring_url u (stop_monitoring_url u s)).monitor_states u
            = some ⟨0, 0, 1⟩) := by
  constructor
  · intro t ht
    unfold start_monitoring_url
    rw [ht]
    rfl
  · intro e he
    have hstop : (stop_monitoring_url u s).active_threads u = none := by
      unfold stop_monitoring_url
      rw [he]
      simp
    unfold start_monitoring_url
    rw [hstop]
    simp

/-- Concrete system state used to witness start_monitoring_url_spec. -/
def sample_state_start : SystemState :=
  { active_threads := fun u => if u = "a" then some 1 else none,
    stop_events := fun u => if u = "a" then some 0 else none,
    monitor_states := fun u => if u = "a" then some ⟨2, 3, 7⟩ else none,
    current_urls := {"a"},
    next_id := 2 }

/-- Witness for start_monitoring_url_spec: starting the already-running url a
is a no-op, and stop followed by start yields zeroed counters. -/
theorem start_monitoring_url_spec_witness :
    start_monitoring_url "a" sample_state_start = sample_state_start
      ∧ (start_monitoring_url "a"
          (stop_monitoring_url "a" sample_state_start)).monitor_states "a"
        = some ⟨0, 0, 1⟩ :=
  ⟨(start_monitoring_url_spec sample_state_start "a").1 1 (by simp [sample_state_start]),
   (start_monitoring_url_spec sample_state_start "a").2 0 (by simp [sample_state_start])⟩

/-- The shared asyncpg connection pool as seen through its close operation:
a closed flag and a count of the open-to-closed transitions actually
performed.  Closing an already-closed pool is a no-op per the library
contract of asyncpg Pool.close, which returns immediately when the pool is
already closed. -/
structure Pool where
  closed : Bool
  close_ops : ℕ
deriving DecidableEq

/-- Close the pool: a second close performs no further close operation. -/
def Pool.close (p : Pool) : Pool :=
  if p.closed then p else { closed := true, close_ops := p.close_ops + 1 }

/-- DatabaseManager.close (db_connect.py lines 38-42): close the pool when
the field is set.  The field is never cleared, so a later call reaches the
pool object again. -/
def db_manager_close : Option Pool → Option Pool
  | none => none
  | some p => some p.close

/-- Whole-process state for the shutdown sequence: the monitor dictionaries
and url set, the running flag, and the database manager pool field. -/
structure AppState where
  sys : SystemState
  running : Bool
  pool : Option Pool

/-- DynamicPingMonitor.shutdown (lines 342-361): clear the running flag,
stop every url in current_urls (which is not cleared), then close the
database pool; any error from the close is caught, so the sequence always
completes. -/
def shutdown (a : AppState) : AppState :=
  { running := false,
    sys := (a.sys.current_urls.sort (· ≤ ·)).foldl
      (fun st u => stop_monitoring_url u st) a.sys,
    pool := db_manager_close a.pool }

/-- Stopping a url never changes current_urls or the id supply. -/
lemma stop_monitoring_url_current_urls (url : String) (s : SystemState) :
    (stop_monitoring_url url s).current_urls = s.current_urls := by
  unfold stop_monitoring_url
  split <;> rfl

/-- The stop-events entry of any url after one stop: deleted for the stopped
url, unchanged otherwise. -/
lemma stop_monitoring_url_stop_events (url v : String) (s : SystemState) :
    (stop_monitoring_url url s).stop_events v
      = if v = url then none else s.stop_events v := by
  unfold stop_monitoring_url
  by_cases h : (s.stop_events url).isSome
  · simp [h]
  · rw [if_neg h]
    by_cases hv : v = url
    · subst hv
      rw [if_pos rfl]
      exact (Option.not_isSome_iff_eq_none.mp h).symm ▸ rfl
    · rw [if_neg hv]

/-- Folding stops leaves current_urls unchanged. -/
lemma foldl_stop_current_urls (L : List String) :
    ∀ s : SystemState,
      (L.foldl (fun st u => stop_monitoring_url u st) s).current_urls
        = s.current_urls := by
  induction L with
  | nil => intro s; rfl
  | cons w rest ih =>
    intro s
    simp only [List.foldl_cons]
    exact (ih (stop_monitoring_url w s)).trans (stop_monitoring_url_current_urls w s)

/-- A url whose stop event is already gone stays gone through any further
sequence of stops. -/
lemma foldl_stop_none (L : List String) :
    ∀ s : SystemState, ∀ v, s.stop_events v = none →
      (L.foldl (fun st u => stop_monitoring_url u st) s).stop_events v = none := by
  induction L with
  | nil => intro s v hv; exact hv
  | cons w rest ih =>
    intro s v hv
    simp only [List.foldl_cons]
    refine ih (stop_monitoring_url w s) v ?_
    rw [stop_monitoring_url_stop_events]
    by_cases h : v = w
    · rw [if_pos h]
    · rw [if_neg h]
      exact hv

/-- After folding stops over a list, every url of the list has no stop
event. -/
lemma foldl_stop_mem_none (L : List String) :
    ∀ s : SystemState, ∀ v, v ∈ L →
      (L.foldl (fun st u => stop_monitoring_url u st) s).stop_events v = none := by
  induction L with
  | nil => intro s v hv; exact absurd hv (List.not_mem_nil v)
  | cons w rest ih =>
    intro s v hv
    simp only [List.foldl_cons]
    by_cases hvw : v = w
    · subst hvw
      by_cases hmem : v ∈ rest
      · exact ih (stop_monitoring_url v s) v hmem
      · refine foldl_stop_none rest (stop_monitoring_url v s) v ?_
        rw [stop_monitoring_url_stop_events, if_pos rfl]
    · have hmem : v ∈ rest := by
        rcases List.mem_cons.mp hv with h | h
        · exact absurd h hvw
        · exact h
      exact ih (stop_monitoring_url w s) v hmem

/-- Folding stops over a list none of whose urls still has a stop event is
the identity. -/
lemma foldl_stop_noop (L : List String) :
    ∀ s : SystemState, (∀ v ∈ L, s.stop_events v = none) →
      L.foldl (fun st u => stop_monitoring_url u st) s = s := by
  induction L with
  | nil => intro s _; rfl
  | cons w rest ih =>
    intro s h
    have hw : stop_monitoring_url w s = s := by
      unfold stop_monitoring_url
      rw [h w (List.mem_cons_self w rest)]
      rfl
    simp only [List.foldl_cons, hw]
    exact ih s fun v hv => h v (List.mem_cons_of_mem w hv)

/-- Closing a pool twice equals closing it once. -/
lemma pool_close_close (p : Pool) : p.close.close = p.close := by
  unfold Pool.close
  by_cases h : p.closed
  · simp [h]
  · simp [h]

/-- Claim C9: the shutdown sequence is idempotent: running it a second time
after it completed leaves the state exactly as after the first run, and in
particular, for a pool that was open before the first shutdown, the two runs
together perform exactly one close operation on the shared pool, never a
second one; no step raises, since the database close is wrapped in a
try-except and a close of an already-closed pool is a library no-op. -/
theorem shutdown_idempotent (a : AppState) :
    shutdown (shutdown a) = shutdown a
      ∧ (∀ p, a.pool = some p → p.closed = false →
          (shutdown (shutdown a)).pool = some ⟨true, p.close_ops + 1⟩) := by
  have hsys : (shutdown (shutdown a)).sys = (shutdown a).sys := by
    show ((shutdown a).sys.current_urls.sort (· ≤ ·)).foldl
        (fun st u => stop_monitoring_url u st) (shutdown a).sys = (shutdown a).sys
    have hurls : (shutdown a).sys.current_urls = a.sys.current_urls :=
      foldl_stop_current_urls (a.sys.current_urls.sort (· ≤ ·)) a.sys
    rw [hurls]
    refine foldl_stop_noop _ _ ?_
    intro v hv
    exact foldl_stop_mem_none (a.sys.current_urls.sort (· ≤ ·)) a.sys v hv
  have hpool : (shutdown (shutdown a)).pool = (shutdown a).pool := by
    show db_manager_close (db_manager_close a.pool) = db_manager_close a.pool
    cases a.pool with
    | none => rfl
    | some p =>
      show some p.close.close = some p.close
      rw [pool_close_close]
  constructor
  · show (⟨(shutdown (shutdown a)).sys, false, (shutdown (shutdown a)).pool⟩ : AppState)
        = ⟨(shutdown a).sys, false, (shutdown a).pool⟩
    rw [hsys, hpool]
  · intro p hp hopen
    rw [hpool]
    show db_manager_close a.pool = some ⟨true, p.close_ops + 1⟩
    rw [hp]
    show some p.close = some ⟨true, p.close_ops + 1⟩
    unfold Pool.close
    rw [hopen]
    rfl

/-- Concrete app state used to witness shutdown_idempotent. -/
def sample_app : AppState :=
  { sys :=
      { active_threads := fun u => if u = "a" then some 1 else none,
        stop_events := fun u => if u = "a" then some 0 else none,
        monitor_states := fun u => if u = "a" then some ⟨2, 3, 7⟩ else none,
        current_urls := {"a"},
        next_id := 2 },
    running := true,
    pool := some ⟨false, 0⟩ }

/-- Witness for shutdown_idempotent: a second shutdown of the sample state
changes nothing and the pool records exactly one close operation. -/
theorem shutdown_idempotent_witness :
    shutdown (shutdown sample_app) = shutdown sample_app
      ∧ (shutdown (shutdown sample_app)).pool = some ⟨true, 0 + 1⟩ :=
  ⟨(shutdown_idempotent sample_app).1,
   (shutdown_idempotent sample_app).2 ⟨false, 0⟩ rfl rfl⟩

/-- Whitespace for the regular expression class backslash-s of the Python re
module, restricted to ASCII: space, tab, newline, carriage return, vertical
tab and form feed. -/
def py_is_space (c : Char) : Bool :=
  c = ' ' || c = '\t' || c = '\n' || c = '\r' || c.toNat = 11 || c.toNat = 12

/-- Numeric value of a string of decimal digits, as read by float. -/
def digits_val (l : List Char) : ℕ :=
  l.foldl (fun a c => 10 * a + (c.toNat - 48)) 0

/-- The data of one match of the time regular expression of ping_host:
group 1 converted by float (exact rational here), and group 2 as the matched
characters with their original case, or none when the unit group matched
empty. -/
structure TimeMatch where
  value : ℚ
  unit : Option (List Char)
deriving DecidableEq

/-- Consume the literal word time case-insensitively at the head of the
input, returning the rest. -/
def take_time_word : List Char → Option (List Char)
  | c1 :: c2 :: c3 :: c4 :: rest =>
    if c1.toLower = 't' && c2.toLower = 'i' && c3.toLower = 'm' && c4.toLower = 'e' then
      some rest
    else none
  | _ => none

/-- Try the regular expression of ping_host at the start of the input, ASCII
semantics: the word time, one of = or <, optional whitespace, digits with an
optional fractional part, optional whitespace, and an optional unit ms or s,
letters case-insensitive.  Greedy and first-alternative matching coincide
with the Python behaviour here because whitespace, digits and the unit
letters are disjoint character classes. -/
def match_at (l : List Char) : Option TimeMatch :=
  match take_time_word l with
  | none => none
  | some rest =>
    match rest with
    | [] => none
    | sep :: r1 =>
      if sep = '=' || sep = '<' then
        let r2 := r1.dropWhile py_is_space
        let int_part := r2.takeWhile Char.isDigit
        let r3 := r2.dropWhile Char.isDigit
        if int_part.isEmpty then none
        else
          let fr : List Char × List Char :=
            match r3 with
            | '.' :: r3a =>
              if (r3a.takeWhile Char.isDigit).isEmpty then ([], r3)
              else (r3a.takeWhile Char.isDigit, r3a.dropWhile Char.isDigit)
            | _ => ([], r3)
          let value : ℚ :=
            (digits_val int_part : ℚ) + (digits_val fr.1 : ℚ) / (10 : ℚ) ^ fr.1.length
          let r5 := fr.2.dropWhile py_is_space
          let unit_match : Option (List Char) :=
            match r5 with
            | a :: b :: _ =>
              if a.toLower = 'm' && b.toLower = 's' then some [a, b]
              else if a.toLower = 's' then some [a] else none
            | [a] => if a.toLower = 's' then some [a] else none
            | [] => none
          some { value := value, unit := unit_match }
      else none

/-- Leftmost search of the time regular expression over the combined stdout
and stderr text, as re.search does. -/
def search_time : List Char → Option TimeMatch
  | [] => none
  | c :: rest =>
    match match_at (c :: rest) with
    | some m => some m
    | none => search_time rest

/-- One invocation of the ping subprocess as ping_host observes it: either
some exception was raised (including the 5 second timeout of
subprocess.run), or the command completed with the given combined output
text. -/
inductive PingInvocation where
  | raised
  | completed (output : List Char)

/-- ping_host (database_ping_monitor.py lines 63-79, identically
PingMonitor.py lines 67-83): any exception yields the failure pair; on a
completed command the output is searched for the time regular expression;
a match yields success with the matched value, multiplied by 1000 exactly
when group 2 compares equal to the lowercase string s; no match yields the
failure pair. -/
def ping_host : PingInvocation → Bool × Option ℚ
  | PingInvocation.raised => (false, none)
  | PingInvocation.completed out =>
    match search_time out with
    | some m =>
      (true, some (if m.unit = some ['s'] then m.value * 1000 else m.value))
    | none => (false, none)

/-- Claim C10 counterexample: the output time=2 S matches the regular
expression with the unit group equal to capital S, a seconds unit under the
case-insensitive flag, yet ping_host returns the value 2 unconverted rather
than 2 * 1000: the seconds conversion compares the unit case-sensitively
against lowercase s, so not every parsed seconds value is multiplied by
1000. -/
theorem ping_host_capital_s_not_converted :
    (search_time "time=2 S".toList).map TimeMatch.unit = some (some ['S'])
      ∧ ping_host (PingInvocation.completed "time=2 S".toList) = (true, some 2)
      ∧ (2 : ℚ) ≠ 2 * 1000 := by
  refine ⟨by with_unfolding_all rfl, by with_unfolding_all rfl, by norm_num⟩

/-- Claim C10 amended: ping_host is total: a raised exception, including the
5 second command timeout, yields (false, none); success is returned exactly
when the command completed and its output contains a match of the time
regular expression, in which case the returned latency is the matched value,
multiplied by 1000 exactly when the unit group is the lowercase string s (a
unit matched with different case, such as capital S, or ms in any case, is
returned unconverted); in every other case the result is (false, none), and
success always comes with a present latency. -/
theorem ping_host_spec (inv : PingInvocation) :
    ((ping_host inv).1 = true ↔
        ∃ out m, inv = PingInvocation.completed out ∧ search_time out = some m)
      ∧ (∀ out m, inv = PingInvocation.completed out → search_time out = some m →
          ping_host inv
            = (true, some (if m.unit = some ['s'] then m.value * 1000 else m.value)))
      ∧ ((ping_host inv).1 = false → (ping_host inv).2 = none)
      ∧ ((ping_host inv).1 = true → (ping_host inv).2.isSome = true) := by
  cases inv with
  | raised =>
    refine ⟨?_, ?_, ?_, ?_⟩
    · simp [ping_host]
    · intro out m hout
      exact absurd hout (by simp)
    · intro _
      rfl
    · intro h
      exact absurd h (by simp [ping_host])
  | completed out =>
    cases hs : search_time out with
    | none =>
      refine ⟨?_, ?_, ?_, ?_⟩
      · simp [ping_host, hs]
      · intro out2 m hout hm
        rw [PingInvocation.completed.injEq] at hout
        rw [← hout] at hm
        exact absurd (hs.symm.trans hm) (by simp)
      · intro _
        simp [ping_host, hs]
      · intro h
        exact absurd h (by simp [ping_host, hs])
    | some m =>
      refine ⟨?_, ?_, ?_, ?_⟩
      · simp only [ping_host, hs]
        exact ⟨fun _ => ⟨out, m, rfl, hs⟩, fun _ => trivial⟩
      · intro out2 m2 hout hm
        rw [PingInvocation.completed.injEq] at hout
        rw [← hout] at hm
        have hmm : m = m2 := Option.some.injEq m m2 ▸ (hs.symm.trans hm)
        simp [ping_host, hs, hmm]
      · intro h
        exact absurd h (by simp [ping_host, hs])
      · intro _
        simp [ping_host, hs]

/-- Witness for ping_host_spec: a completed ping whose output reads
time=3.5 s parses to the value 3.5 with lowercase unit s, so ping_host
returns success with the seconds value multiplied by 1000. -/
theorem ping_host_spec_witness :
    ping_host (PingInvocation.completed "time=3.5 s".toList)
      = (true, some (if (TimeMatch.mk (7 / 2) (some ['s'])).unit = some ['s']
          then (TimeMatch.mk (7 / 2) (some ['s'])).value * 1000
          else (TimeMatch.mk (7 / 2) (some ['s'])).value)) :=
  (ping_host_spec (PingInvocation.completed "time=3.5 s".toList)).2.1
    "time=3.5 s".toList ⟨7 / 2, some ['s']⟩ rfl (by with_unfolding_all rfl)

end PingMonitor
